import Mathlib

/-!
Verification of the wplace-ar geospatial core against its specification.

The definitions below are a shallow embedding of the JavaScript modules
src/utils.js, src/tiles.js, src/controls.js and src/geolocation.js.
JavaScript numbers are modelled as real numbers; integer-valued
quantities (tile indices, pixel offsets produced by Math.floor) are
modelled as integers via Int.floor; module-level mutable state is passed
explicitly as state records.
-/

namespace WplaceAR

/-! ## Configuration constants (src/config.js) -/

/-- Tile system zoom level, from config.js: ZOOM_LEVEL = 11. -/
def ZOOM_LEVEL : ℕ := 11

/-- Tile size in world units, from config.js: TILE_SIZE = 1000. -/
def TILE_SIZE : ℚ := 1000

/-- Initial sky height, from config.js: SKY_HEIGHT = 200. -/
def SKY_HEIGHT : ℚ := 200

/-- Fast smoothing time constant, from config.js: TAU_BASE = 0.03. -/
noncomputable def TAU_BASE : ℝ := 3 / 100

/-- Slow smoothing time constant, from config.js: TAU_SLOW = 0.12. -/
noncomputable def TAU_SLOW : ℝ := 12 / 100

/-! ## Projection module (src/utils.js, latLonToTile) -/

/-- Normalized Mercator x coordinate: the local `x` of latLonToTile,
`(lon + 180) / 360`. -/
noncomputable def mercatorX (lon : ℝ) : ℝ := (lon + 180) / 360

/-- Normalized Mercator y coordinate: the local `y` of latLonToTile,
`(1 - Math.log(Math.tan(Math.PI / 4 + (lat * Math.PI / 180) / 2)) / Math.PI) / 2`. -/
noncomputable def mercatorY (lat : ℝ) : ℝ :=
  (1 - Real.log (Real.tan (Real.pi / 4 + (lat * Real.pi / 180) / 2)) / Real.pi) / 2

/-- Result record of latLonToTile: `{ tileX, tileY, pixelX, pixelY }`. -/
structure TileCoords where
  tileX : ℤ
  tileY : ℤ
  pixelX : ℤ
  pixelY : ℤ

/-- Embedding of `latLonToTile(lat, lon, zoom, tileSize)` from src/utils.js.
Math.floor on the nonnegative-to-large range used here is Int.floor. -/
noncomputable def latLonToTile (lat lon : ℝ) (zoom : ℕ) (tileSize : ℝ) : TileCoords :=
  let x := mercatorX lon
  let y := mercatorY lat
  let n := (2 : ℝ) ^ zoom
  let tX := ⌊x * n⌋
  let tY := ⌊y * n⌋
  ⟨tX, tY, ⌊(x * n - (tX : ℝ)) * tileSize⌋, ⌊(y * n - (tY : ℝ)) * tileSize⌋⟩

/-! ## Distance module (src/utils.js, calculateDistance) -/

/-- JavaScript Math.atan2(y, x): quadrant-aware arc tangent. -/
noncomputable def atan2 (y x : ℝ) : ℝ :=
  if 0 < x then Real.arctan (y / x)
  else if x < 0 then
    if 0 ≤ y then Real.arctan (y / x) + Real.pi else Real.arctan (y / x) - Real.pi
  else
    if 0 < y then Real.pi / 2 else if y < 0 then -(Real.pi / 2) else 0

/-- Local `a` of calculateDistance (src/utils.js), with the local
constants phi1 = lat1*pi/180, phi2 = lat2*pi/180,
dphi = (lat2-lat1)*pi/180 and dlam = (lon2-lon1)*pi/180 inlined:
`sin(dphi/2) * sin(dphi/2) + cos(phi1) * cos(phi2) * sin(dlam/2) * sin(dlam/2)`. -/
noncomputable def haversineA (lat1 lon1 lat2 lon2 : ℝ) : ℝ :=
  Real.sin ((lat2 - lat1) * Real.pi / 180 / 2) *
      Real.sin ((lat2 - lat1) * Real.pi / 180 / 2) +
    Real.cos (lat1 * Real.pi / 180) * Real.cos (lat2 * Real.pi / 180) *
      Real.sin ((lon2 - lon1) * Real.pi / 180 / 2) *
      Real.sin ((lon2 - lon1) * Real.pi / 180 / 2)

/-- Embedding of `calculateDistance(lat1, lon1, lat2, lon2)` from src/utils.js:
`R * c` with R = 6371e3 and `c = 2 * atan2(sqrt(a), sqrt(1 - a))`. -/
noncomputable def calculateDistance (lat1 lon1 lat2 lon2 : ℝ) : ℝ :=
  6371000 *
    (2 * atan2 (Real.sqrt (haversineA lat1 lon1 lat2 lon2))
      (Real.sqrt (1 - haversineA lat1 lon1 lat2 lon2)))

/-! ## Tile grid manager (src/tiles.js)

Module state (tileGrid, currentPixelOffsets, tileGroup) is passed
explicitly. A tile plane together with the grid bookkeeping stored in
`tileGrid.set(tileKey, {...tileData, tileX, tileY, relativeX, relativeY})`
is modelled by `TileCell`; the JavaScript Map keyed by the string
`"tileX,tileY"` is modelled by the list of its 9 entries in insertion
order (the 9 keys of one build are pairwise distinct). -/

/-- One tile plane plus its grid bookkeeping. The material of a fresh
plane starts fully transparent (createAlphaFogMaterial passes
`opacity: 0`), recorded in `opacity`. -/
structure TileCell where
  tileX : ℤ
  tileY : ℤ
  relativeX : ℤ
  relativeY : ℤ
  posX : ℚ
  posY : ℚ
  posZ : ℚ
  opacity : ℚ
deriving DecidableEq

/-- Embedding of `calculateTilePosition(relativeX, relativeY)` from
src/tiles.js; the module state `currentPixelOffsets` is passed as the
explicit arguments `pixelX`, `pixelY`. Returns the (x, z) pair. -/
def calculateTilePosition (pixelX pixelY relativeX relativeY : ℤ) : ℚ × ℚ :=
  if relativeX = 0 ∧ relativeY = 0 then
    (TILE_SIZE / 2 - pixelX, TILE_SIZE / 2 - pixelY)
  else
    ((TILE_SIZE / 2 - pixelX) + relativeX * TILE_SIZE,
     (TILE_SIZE / 2 - pixelY) - relativeY * TILE_SIZE)

/-- Embedding of `createTilePlane(tileX, tileY, relativeX, relativeY)` from
src/tiles.js, merged with the bookkeeping fields that loadTileGridTextures
and buildTileGrid store alongside it: the plane is positioned at
`(position.x, SKY_HEIGHT, position.z)` and starts invisible. -/
def createTilePlane (tileX tileY relativeX relativeY pixelX pixelY : ℤ) : TileCell :=
  let position := calculateTilePosition pixelX pixelY relativeX relativeY
  { tileX := tileX, tileY := tileY, relativeX := relativeX, relativeY := relativeY,
    posX := position.1, posY := SKY_HEIGHT, posZ := position.2, opacity := 0 }

/-- The (dx, dy) pairs visited by the two nested loops of buildTileGrid
(`for dx = -1..1, for dy = -1..1`), in loop order. -/
def gridOffsets : List (ℤ × ℤ) :=
  [(-1, -1), (-1, 0), (-1, 1), (0, -1), (0, 0), (0, 1), (1, -1), (1, 0), (1, 1)]

/-- Embedding of `buildTileGrid(centerTileX, centerTileY)` from
src/tiles.js: a 3x3 grid of cells around the center tile. -/
def buildTileGrid (centerTileX centerTileY pixelX pixelY : ℤ) : List TileCell :=
  gridOffsets.map fun d =>
    createTilePlane (centerTileX + d.1) (centerTileY + d.2) d.1 d.2 pixelX pixelY

/-! ### The texture-swap bookkeeping of loadTileGridTextures -/

/-- State of one grid rebuild in loadTileGridTextures, between the calls
to loadSingleTileTexture and the completion of the last fetch:
`oldInScene` counts old planes still attached to the saved oldTileGroup,
`newOpacity` is the opacity shared by the 9 fresh materials,
`loadedCount` and `totalTiles` are the closure variables of the same
names. -/
structure SwapState where
  oldInScene : ℕ
  newOpacity : ℚ
  loadedCount : ℕ
  totalTiles : ℕ
deriving DecidableEq

/-- State right after loadTileGridTextures has saved the old grid, built
the 9 fresh invisible cells and issued the 9 fetches: nothing settled
yet, the 9 old planes still shown, the new materials at opacity 0. -/
def startRebuild : SwapState :=
  { oldInScene := 9, newOpacity := 0, loadedCount := 0, totalTiles := 9 }

/-- One settled texture fetch: the completion callback passed to
loadSingleTileTexture. Both the onLoad and the onError path of
loadSingleTileTexture invoke it identically (`success` is ignored), it
increments loadedCount, and once `loadedCount === totalTiles` it disposes
and removes every old plane and sets all new materials to the opacity the
caller reads from the UI (`getOpacityCallback`). -/
def settleOne (opacity : ℚ) (_success : Bool) (s : SwapState) : SwapState :=
  let counted := s.loadedCount + 1
  if counted = s.totalTiles then
    { oldInScene := 0, newOpacity := opacity, loadedCount := counted,
      totalTiles := s.totalTiles }
  else
    { oldInScene := s.oldInScene, newOpacity := s.newOpacity,
      loadedCount := counted, totalTiles := s.totalTiles }

/-- A sequence of settled fetches, each a success or a failure flag, in
arrival order. -/
def settleMany (opacity : ℚ) (events : List Bool) (s : SwapState) : SwapState :=
  events.foldl (fun st b => settleOne opacity b st) s

/-! ## Location tracker (src/geolocation.js and the GPS modal wiring) -/

/-- A latitude/longitude pair, `{ lat, lon }`. -/
structure Coord where
  lat : ℚ
  lon : ℚ
deriving DecidableEq

/-- Fallback location (Toronto), from config.js:
`{ lat: 43.642567, lon: -79.387054 }`. -/
def FALLBACK : Coord := ⟨43642567 / 1000000, -79387054 / 1000000⟩

/-- Outcome of one query to the platform geolocation service:
the API object is missing entirely, the query invoked its error
callback, or it produced a position. -/
inductive GeoQueryResult where
  | unavailable
  | failed
  | located (c : Coord)
deriving DecidableEq

/-- Module state of src/geolocation.js. `timerActive` models
`gpsTrackingIntervalId !== null`; `started` models the flag the UI layer
checks before restarting tracking in useCurrentGPS. -/
structure GeoState where
  gpsOverride : Option Coord
  currentLocation : Option Coord
  selectedLocation : Option Coord
  lastKnownPosition : Option Coord
  timerActive : Bool
  isLiveTrackingEnabled : Bool
  started : Bool
deriving DecidableEq

/-- Result of getLatLonOnce: the coordinate the promise resolves with,
the updated module state, and whether the fallback alert was shown. -/
structure OnceResult where
  resolved : Coord
  state : GeoState
  alertShown : Bool
deriving DecidableEq

/-- Embedding of `getLatLonOnce()` from src/geolocation.js with the
platform outcome passed as `env`. The promise never rejects, so the
result is total. With an override active it resolves the override at
once; with no geolocation API it alerts and resolves FALLBACK, updating
only currentLocation; on a failed query it alerts and resolves FALLBACK,
updating currentLocation and lastKnownPosition; on success it resolves
the sample and stores it in both. -/
def getLatLonOnce (s : GeoState) (env : GeoQueryResult) : OnceResult :=
  match s.gpsOverride with
  | some o => ⟨o, s, false⟩
  | none =>
    match env with
    | .unavailable => ⟨FALLBACK, { s with currentLocation := some FALLBACK }, true⟩
    | .failed =>
        ⟨FALLBACK,
         { s with currentLocation := some FALLBACK,
                  lastKnownPosition := some FALLBACK }, true⟩
    | .located c =>
        ⟨c, { s with currentLocation := some c, lastKnownPosition := some c }, false⟩

/-- Embedding of `stopGPSTracking()`: clears the interval. -/
def stopGPSTracking (s : GeoState) : GeoState := { s with timerActive := false }

/-- Embedding of `startGPSTracking()`: refuses to start while an override
is active, otherwise clears any existing interval and installs a new one. -/
def startGPSTracking (s : GeoState) : GeoState :=
  if s.gpsOverride.isSome then s
  else { stopGPSTracking s with timerActive := true }

/-- Embedding of one firing of the setInterval callback installed by
startGPSTracking. Returns the new state and whether the callback asked
the platform for a position (`navigator.geolocation.getCurrentPosition`).
A callback never fires with the timer cleared; with an override active it
stops tracking and performs no position check; with no geolocation API it
returns without a check. `moved` stands for the comparison
`calculateDistance(lastKnown, new) > gpsDistanceThreshold` of the source. -/
def timerTick (s : GeoState) (env : GeoQueryResult) (moved : Bool) : GeoState × Bool :=
  if s.timerActive = false then (s, false)
  else if s.gpsOverride.isSome then (stopGPSTracking s, false)
  else
    match env with
    | .unavailable => (s, false)
    | .failed => (s, true)
    | .located c =>
      match s.lastKnownPosition with
      | none =>
          ({ s with lastKnownPosition := some c, currentLocation := some c }, true)
      | some _ =>
          if moved then
            ({ s with lastKnownPosition := some c, currentLocation := some c }, true)
          else (s, true)

/-- Embedding of `applySelectedLocation()` from the GPS modal wiring:
with a selected location it sets the override to it, stops GPS tracking
and disables live tracking; with none selected it only alerts. -/
def applySelectedLocation (s : GeoState) : GeoState :=
  match s.selectedLocation with
  | none => s
  | some sel =>
      { stopGPSTracking { s with gpsOverride := some sel } with
        isLiveTrackingEnabled := false }

/-- Embedding of `useCurrentGPS()` from the GPS modal wiring: clears the
override and the selection, re-enables live tracking, and restarts GPS
tracking when the AR session has started. -/
def useCurrentGPS (s : GeoState) : GeoState :=
  let cleared := { s with gpsOverride := none, selectedLocation := none,
                          isLiveTrackingEnabled := true }
  if cleared.started then startGPSTracking cleared else cleared

/-! ## Orientation filter (src/controls.js, updateControls)

Quaternions are four real components. `clamp` and `lerp` follow
THREE.MathUtils; `slerp` models THREE.Quaternion.slerp, an external
library function: spherical linear interpolation along the shortest arc,
with the sign flip of the target when the dot product is negative and an
early return when the inputs are already aligned. The near-parallel
branch of the library, a guard against numerical cancellation within one
machine epsilon, has no counterpart in exact real arithmetic and is
omitted. -/

/-- A quaternion as stored by the library: four real components. -/
structure Quat where
  x : ℝ
  y : ℝ
  z : ℝ
  w : ℝ

/-- Quaternion dot product, THREE.Quaternion.dot. -/
noncomputable def qdot (p q : Quat) : ℝ :=
  p.x * q.x + p.y * q.y + p.z * q.z + p.w * q.w

/-- Componentwise negation of a quaternion. -/
noncomputable def qneg (q : Quat) : Quat := ⟨-q.x, -q.y, -q.z, -q.w⟩

/-- Scaling of a quaternion by a real. -/
noncomputable def qsmul (a : ℝ) (q : Quat) : Quat := ⟨a * q.x, a * q.y, a * q.z, a * q.w⟩

/-- Componentwise sum of two quaternions. -/
noncomputable def qadd (p q : Quat) : Quat := ⟨p.x + q.x, p.y + q.y, p.z + q.z, p.w + q.w⟩

/-- THREE.MathUtils.clamp(value, min, max) = max(min, min(max, value)). -/
noncomputable def clamp (v lo hi : ℝ) : ℝ := max lo (min hi v)

/-- THREE.MathUtils.lerp(a, b, t) = (1 - t) * a + t * b. -/
noncomputable def lerp (a b t : ℝ) : ℝ := (1 - t) * a + t * b

/-- Model of THREE.Quaternion.slerp(q, t) called as `p.slerp(q, t)`:
early return of the endpoints at t = 0, t = 1 or when the rotations
already agree (`cosHalfTheta >= 1`), otherwise interpolation along the
shortest arc, against `-q` when the dot product is negative. The library
computes halfTheta as atan2(sinHalfTheta, cosHalfTheta), which for the
flipped cosine in [0, 1) equals arccos. -/
noncomputable def slerp (p q : Quat) (t : ℝ) : Quat :=
  if t = 0 then p
  else if t = 1 then q
  else
    let cosHalfTheta := qdot p q
    let target := if cosHalfTheta < 0 then qneg q else q
    let c := |cosHalfTheta|
    if 1 ≤ c then p
    else
      let halfTheta := Real.arccos c
      let sinHalfTheta := Real.sqrt (1 - c ^ 2)
      qadd (qsmul (Real.sin ((1 - t) * halfTheta) / sinHalfTheta) p)
           (qsmul (Real.sin (t * halfTheta) / sinHalfTheta) target)

/-- Mutable state of src/controls.js in device-orientation mode: the
smoothed quaternion `smoothQ`, the `orientationInitialized` flag, the
last frame time `lastT`, and the camera quaternion written each frame. -/
structure ControlState where
  smoothQ : Quat
  orientationInitialized : Bool
  lastT : ℝ
  cameraQ : Quat

/-- The per-frame smoothing computation of updateControls once `dt` and
the current smoothed quaternion are fixed: the angular difference to the
raw target, the adaptive time constant, the frame-rate independent blend
weight, and the slerp toward the target. -/
noncomputable def filterStep (dt : ℝ) (target p : Quat) : Quat :=
  let d := clamp (qdot p target) (-1) 1
  let ang := 2 * Real.arccos |d|
  let k := clamp (ang / (1 / 4)) 0 1
  let tau := lerp TAU_SLOW TAU_BASE k
  let alpha := dt / (tau + dt)
  slerp p target alpha

/-- Embedding of `updateControls(currentTime)` from src/controls.js in
device-orientation mode, with the raw sample written by
DeviceOrientationControls into orientationProxy.quaternion passed as
`raw`: dt is the elapsed seconds clamped below by 0.001, on the first
frame smoothQ is first set to the raw sample, then the adaptive slerp
runs and the result is copied to the camera. -/
noncomputable def updateControls (raw : Quat) (currentTime : ℝ) (s : ControlState) :
    ControlState :=
  let dt := max (1 / 1000) ((currentTime - s.lastT) / 1000)
  let prev := if s.orientationInitialized then s.smoothQ else raw
  let newQ := filterStep dt raw prev
  { smoothQ := newQ, orientationInitialized := true, lastT := currentTime,
    cameraQ := newQ }

/-- Iteration of the smoothing step under a constant raw input `raw` and
per-frame elapsed times `dt n`, starting from an already initialized
smoothed quaternion `p0`. -/
noncomputable def filterIter (raw : Quat) (dt : ℕ → ℝ) (p0 : Quat) : ℕ → Quat
  | 0 => p0
  | n + 1 => filterStep (dt n) raw (filterIter raw dt p0 n)

/-- The angle the filter measures between two unit rotations:
`2 * acos(|clamp(dot, -1, 1)|)`, the shortest-arc rotation angle. -/
noncomputable def angleBetween (p q : Quat) : ℝ :=
  2 * Real.arccos |clamp (qdot p q) (-1) 1|

/-- The 3x3 grid that loadTileGridTextures(lat, lon) builds: it projects
(lat, lon) at ZOOM_LEVEL and TILE_SIZE, stores the pixel offsets, and
calls buildTileGrid on the resulting center tile. -/
noncomputable def loadTileGridTextures_grid (lat lon : ℝ) : List TileCell :=
  let r := latLonToTile lat lon ZOOM_LEVEL (TILE_SIZE : ℝ)
  buildTileGrid r.tileX r.tileY r.pixelX r.pixelY

/-! ## Theorems -/

/-- Claim C2: latLonToTile(lat, lon, z, s) returns tileX = floor(x * 2^z),
tileY = floor(y * 2^z), pixelX = floor((x * 2^z - tileX) * s),
pixelY = floor((y * 2^z - tileY) * s), where x = (lon + 180) / 360 and
y = (1 - ln(tan(pi/4 + lat * pi / 360)) / pi) / 2. -/
theorem latLonToTile_formula (lat lon : ℝ) (zoom : ℕ) (tileSize : ℝ) :
    (latLonToTile lat lon zoom tileSize).tileX =
      ⌊(lon + 180) / 360 * 2 ^ zoom⌋ ∧
    (latLonToTile lat lon zoom tileSize).tileY =
      ⌊(1 - Real.log (Real.tan (Real.pi / 4 + lat * Real.pi / 360)) / Real.pi) / 2
        * 2 ^ zoom⌋ ∧
    (latLonToTile lat lon zoom tileSize).pixelX =
      ⌊((lon + 180) / 360 * 2 ^ zoom
        - (⌊(lon + 180) / 360 * 2 ^ zoom⌋ : ℝ)) * tileSize⌋ ∧
    (latLonToTile lat lon zoom tileSize).pixelY =
      ⌊((1 - Real.log (Real.tan (Real.pi / 4 + lat * Real.pi / 360)) / Real.pi) / 2
          * 2 ^ zoom
        - (⌊(1 - Real.log (Real.tan (Real.pi / 4 + lat * Real.pi / 360)) / Real.pi) / 2
            * 2 ^ zoom⌋ : ℝ)) * tileSize⌋ := by
  have harg : Real.pi / 4 + lat * Real.pi / 180 / 2 = Real.pi / 4 + lat * Real.pi / 360 := by
    ring
  simp only [latLonToTile, mercatorX, mercatorY, harg]
  exact ⟨trivial, trivial, trivial, trivial⟩

/-- Claim C5: the center cell is placed at
(tileSize/2 - pixelX, tileSize/2 - pixelY), and every cell at relative
offset (dx, dy) is placed at the center position plus dx * tileSize on
the x axis and minus dy * tileSize on the z axis; createTilePlane stores
exactly this position in the plane. -/
theorem tilePosition_spec (pixelX pixelY relativeX relativeY : ℤ) :
    calculateTilePosition pixelX pixelY 0 0 =
      (TILE_SIZE / 2 - pixelX, TILE_SIZE / 2 - pixelY) ∧
    calculateTilePosition pixelX pixelY relativeX relativeY =
      ((calculateTilePosition pixelX pixelY 0 0).1 + relativeX * TILE_SIZE,
       (calculateTilePosition pixelX pixelY 0 0).2 - relativeY * TILE_SIZE) ∧
    ∀ tX tY : ℤ,
      (createTilePlane tX tY relativeX relativeY pixelX pixelY).posX =
        (calculateTilePosition pixelX pixelY relativeX relativeY).1 ∧
      (createTilePlane tX tY relativeX relativeY pixelX pixelY).posZ =
        (calculateTilePosition pixelX pixelY relativeX relativeY).2 := by
  refine ⟨by simp [calculateTilePosition], ?_, fun tX tY => ⟨rfl, rfl⟩⟩
  by_cases h : relativeX = 0 ∧ relativeY = 0
  · obtain ⟨h1, h2⟩ := h
    subst h1; subst h2
    simp [calculateTilePosition]
  · simp [calculateTilePosition, h]

/-- Claim C3: after a completed rebuild for (lat, lon) the grid holds
exactly 9 cells, their relative offsets are exactly the 9 pairs of
{-1,0,1} x {-1,0,1}, and each cell carries the center tile index of
latLonToTile(lat, lon) shifted by its relative offset. -/
theorem tileGrid_invariant (lat lon : ℝ) :
    (loadTileGridTextures_grid lat lon).length = 9 ∧
    (loadTileGridTextures_grid lat lon).map
        (fun cell => (cell.relativeX, cell.relativeY)) = gridOffsets ∧
    gridOffsets.Nodup ∧
    (∀ d : ℤ × ℤ, d ∈ gridOffsets ↔
      (d.1 = -1 ∨ d.1 = 0 ∨ d.1 = 1) ∧ (d.2 = -1 ∨ d.2 = 0 ∨ d.2 = 1)) ∧
    (loadTileGridTextures_grid lat lon).map (fun cell => (cell.tileX, cell.tileY)) =
      gridOffsets.map (fun d =>
        ((latLonToTile lat lon ZOOM_LEVEL (TILE_SIZE : ℝ)).tileX + d.1,
         (latLonToTile lat lon ZOOM_LEVEL (TILE_SIZE : ℝ)).tileY + d.2)) := by
  refine ⟨?_, ?_, by decide, ?_, ?_⟩
  · simp [loadTileGridTextures_grid, buildTileGrid, gridOffsets]
  · simp [loadTileGridTextures_grid, buildTileGrid, gridOffsets, createTilePlane]
  · intro d
    obtain ⟨a, b⟩ := d
    simp only [gridOffsets, List.mem_cons, List.not_mem_nil, or_false, Prod.mk.injEq]
    omega
  · simp [loadTileGridTextures_grid, buildTileGrid, gridOffsets, createTilePlane]

/-- Helper for C1: while fewer settles than tiles have arrived, each
settle only advances loadedCount; old planes stay, new stay invisible. -/
theorem settleMany_partial (opacity : ℚ) :
    ∀ (events : List Bool) (n : ℕ), n + events.length < 9 →
      settleMany opacity events ⟨9, 0, n, 9⟩ = ⟨9, 0, n + events.length, 9⟩ := by
  intro events
  induction events with
  | nil => intro n _; simp [settleMany]
  | cons b bs ih =>
    intro n h
    have hlen : n + (bs.length + 1) < 9 := by simpa using h
    have hne : ¬(n + 1 = 9) := by omega
    have hstep : settleOne opacity b ⟨9, 0, n, 9⟩ = ⟨9, 0, n + 1, 9⟩ := by
      simp [settleOne, hne]
    have hrw : settleMany opacity (b :: bs) ⟨9, 0, n, 9⟩ =
        settleMany opacity bs (settleOne opacity b ⟨9, 0, n, 9⟩) := rfl
    rw [hrw, hstep, ih (n + 1) (by omega)]
    have : n + 1 + bs.length = n + (b :: bs).length := by simp; omega
    rw [this]

/-- Helper for C1: the settle that brings loadedCount to totalTiles
removes the old planes and reveals the new ones at the caller opacity. -/
theorem settleMany_complete (opacity : ℚ) :
    ∀ (events : List Bool) (n : ℕ), events ≠ [] → n + events.length = 9 →
      settleMany opacity events ⟨9, 0, n, 9⟩ = ⟨0, opacity, 9, 9⟩ := by
  intro events
  induction events with
  | nil => intro n h _; cases h rfl
  | cons b bs ih =>
    intro n _ hlen
    cases bs with
    | nil =>
      have h9 : n + 1 = 9 := by simpa using hlen
      show settleMany opacity [] (settleOne opacity b ⟨9, 0, n, 9⟩) = _
      simp [settleMany, settleOne, h9]
    | cons b2 bs2 =>
      have hlen2 : n + (bs2.length + 2) = 9 := by simpa [Nat.add_assoc] using hlen
      have hne : ¬(n + 1 = 9) := by omega
      have hstep : settleOne opacity b ⟨9, 0, n, 9⟩ = ⟨9, 0, n + 1, 9⟩ := by
        simp [settleOne, hne]
      show settleMany opacity (b2 :: bs2) (settleOne opacity b ⟨9, 0, n, 9⟩) = _
      rw [hstep]
      exact ih (n + 1) (by simp) (by simp; omega)

/-- Claim C1: within one rebuild, as long as fewer than all 9 fetches
have settled (failures settling exactly like successes), every old plane
is still in the scene and every new material is still at opacity 0; the
settle of the 9th fetch removes and disposes the old planes and raises
the new opacity to the caller-specified value. -/
theorem loadTileGridTextures_atomic_swap (opacity : ℚ) (events : List Bool) :
    (events.length < 9 →
      (settleMany opacity events startRebuild).oldInScene = 9 ∧
      (settleMany opacity events startRebuild).newOpacity = 0) ∧
    (events.length = 9 →
      (settleMany opacity events startRebuild).oldInScene = 0 ∧
      (settleMany opacity events startRebuild).newOpacity = opacity) := by
  have hs : startRebuild = (⟨9, 0, 0, 9⟩ : SwapState) := rfl
  constructor
  · intro h
    rw [hs, settleMany_partial opacity events 0 (by omega)]
    exact ⟨rfl, rfl⟩
  · intro h
    have hne : events ≠ [] := by
      intro e
      rw [e] at h
      simp at h
    rw [hs, settleMany_complete opacity events 0 hne (by omega)]
    exact ⟨rfl, rfl⟩

/-- Witness for C1 at a concrete run: 9 settles, two of them failures,
at caller opacity 1/2. -/
theorem loadTileGridTextures_atomic_swap_witness :
    (settleMany (1 / 2) [true, false, true, true, true, false, true, true, true]
      startRebuild).oldInScene = 0 ∧
    (settleMany (1 / 2) [true, false, true, true, true, false, true, true, true]
      startRebuild).newOpacity = 1 / 2 :=
  (loadTileGridTextures_atomic_swap (1 / 2)
    [true, false, true, true, true, false, true, true, true]).2 (by decide)

/-- Claim C8: applying a selected override stops the polling timer, a
stale timer callback under an active override performs no position check
and leaves the timer stopped, clearing the override (with the session
started) restarts the timer, and every position query under an override
resolves the override immediately without touching the state. -/
theorem override_suspends_polling (s : GeoState) (c sel : Coord)
    (env : GeoQueryResult) (moved : Bool) :
    (s.selectedLocation = some sel →
      (applySelectedLocation s).gpsOverride = some sel ∧
      (applySelectedLocation s).timerActive = false) ∧
    (s.gpsOverride = some c →
      (timerTick s env moved).2 = false ∧
      (timerTick s env moved).1.timerActive = false) ∧
    (s.started = true →
      (useCurrentGPS s).gpsOverride = none ∧
      (useCurrentGPS s).timerActive = true) ∧
    (s.gpsOverride = some c → getLatLonOnce s env = ⟨c, s, false⟩) := by
  refine ⟨?_, ?_, ?_, ?_⟩
  · intro h
    simp [applySelectedLocation, h, stopGPSTracking]
  · intro h
    cases htA : s.timerActive with
    | false => simp [timerTick, htA]
    | true => simp [timerTick, htA, h, stopGPSTracking]
  · intro h
    simp [useCurrentGPS, h, startGPSTracking, stopGPSTracking]
  · intro h
    simp [getLatLonOnce, h]

/-- Witness for C8 at a concrete state carrying an override and a
selection, with the timer running and the session started. -/
theorem override_suspends_polling_witness :
    (applySelectedLocation
      ⟨some ⟨1, 2⟩, none, some ⟨3, 4⟩, none, true, true, true⟩).timerActive = false ∧
    (timerTick ⟨some ⟨1, 2⟩, none, some ⟨3, 4⟩, none, true, true, true⟩
      .failed true).2 = false ∧
    (useCurrentGPS
      ⟨some ⟨1, 2⟩, none, some ⟨3, 4⟩, none, true, true, true⟩).timerActive = true ∧
    getLatLonOnce ⟨some ⟨1, 2⟩, none, some ⟨3, 4⟩, none, true, true, true⟩ .failed =
      ⟨⟨1, 2⟩, ⟨some ⟨1, 2⟩, none, some ⟨3, 4⟩, none, true, true, true⟩, false⟩ := by
  have h := override_suspends_polling
    ⟨some ⟨1, 2⟩, none, some ⟨3, 4⟩, none, true, true, true⟩ ⟨1, 2⟩ ⟨3, 4⟩ .failed true
  exact ⟨(h.1 rfl).2, (h.2.1 rfl).1, (h.2.2.1 rfl).2, h.2.2.2 rfl⟩

/-- Claim C9 (amended): with no override, getLatLonOnce always resolves:
when geolocation is missing it alerts and resolves the fallback, storing
it as the current location only; when the query fails it alerts and
resolves the fallback, storing it as both the current and the last-known
position; a successful sample is resolved and stored in both, overriding
any earlier fallback. -/
theorem getLatLonOnce_fallback (s : GeoState) (h : s.gpsOverride = none) :
    (getLatLonOnce s .unavailable).resolved = FALLBACK ∧
    (getLatLonOnce s .unavailable).alertShown = true ∧
    (getLatLonOnce s .unavailable).state =
      { s with currentLocation := some FALLBACK } ∧
    (getLatLonOnce s .failed).resolved = FALLBACK ∧
    (getLatLonOnce s .failed).alertShown = true ∧
    (getLatLonOnce s .failed).state =
      { s with currentLocation := some FALLBACK,
               lastKnownPosition := some FALLBACK } ∧
    ∀ c : Coord, (getLatLonOnce s (.located c)).resolved = c ∧
      (getLatLonOnce s (.located c)).state.currentLocation = some c ∧
      (getLatLonOnce s (.located c)).state.lastKnownPosition = some c := by
  simp [getLatLonOnce, h]

/-- Witness for C9 at a concrete state with no override. -/
theorem getLatLonOnce_fallback_witness :
    (getLatLonOnce ⟨none, none, none, none, true, true, true⟩ .unavailable).resolved =
      FALLBACK ∧
    (getLatLonOnce ⟨none, none, none, none, true, true, true⟩
      .failed).state.lastKnownPosition = some FALLBACK := by
  have h := getLatLonOnce_fallback ⟨none, none, none, none, true, true, true⟩ rfl
  refine ⟨h.1, ?_⟩
  rw [h.2.2.2.2.2.1]

/-- Counterexample for C9 as frozen: in the geolocation-unavailable
branch the fallback is resolved and alerted but is not stored as the
last-known position (that field keeps its old value, here none). -/
theorem getLatLonOnce_unavailable_lastKnown_counterexample :
    (getLatLonOnce ⟨none, none, none, none, true, true, true⟩ .unavailable).resolved =
      FALLBACK ∧
    (getLatLonOnce ⟨none, none, none, none, true, true, true⟩ .unavailable).alertShown =
      true ∧
    (getLatLonOnce ⟨none, none, none, none, true, true, true⟩
      .unavailable).state.lastKnownPosition ≠ some FALLBACK := by
  refine ⟨rfl, rfl, ?_⟩
  simp [getLatLonOnce]

/-- Helper: JavaScript atan2 is nonnegative when its first argument is. -/
theorem atan2_nonneg (y x : ℝ) (hy : 0 ≤ y) : 0 ≤ atan2 y x := by
  unfold atan2
  have hpi := Real.pi_pos
  have harc := Real.neg_pi_div_two_lt_arctan (y / x)
  have h0 : ∀ z : ℝ, 0 ≤ z → 0 ≤ Real.arctan z := fun z hz => by
    have hmono := Real.arctan_strictMono.monotone hz
    rwa [Real.arctan_zero] at hmono
  split_ifs with h1 h2 h3 h4 h5 <;>
    first
      | linarith
      | exact h0 _ (div_nonneg hy h1.le)
      | linarith [not_le.mp h3]

/-- Helper: atan2 0 1 = arctan 0 = 0. -/
theorem atan2_zero_one : atan2 0 1 = 0 := by
  unfold atan2
  norm_num [Real.arctan_zero]

/-- Helper: the haversine quantity `a` is symmetric in its two points. -/
theorem haversineA_symm (lat1 lon1 lat2 lon2 : ℝ) :
    haversineA lat1 lon1 lat2 lon2 = haversineA lat2 lon2 lat1 lon1 := by
  unfold haversineA
  have e1 : (lat1 - lat2) * Real.pi / 180 / 2 =
      -((lat2 - lat1) * Real.pi / 180 / 2) := by ring
  have e2 : (lon1 - lon2) * Real.pi / 180 / 2 =
      -((lon2 - lon1) * Real.pi / 180 / 2) := by ring
  rw [e1, e2, Real.sin_neg, Real.sin_neg]
  ring

/-- Helper: the haversine quantity `a` vanishes on identical points. -/
theorem haversineA_self (lat lon : ℝ) : haversineA lat lon lat lon = 0 := by
  unfold haversineA
  simp

/-- Claim C10: calculateDistance is symmetric, nonnegative, and zero on
identical coordinates (latitudes restricted to the valid [-90, 90]
range of the GeoCoordinate data model). -/
theorem calculateDistance_props (lat1 lon1 lat2 lon2 : ℝ)
    (h1a : -90 ≤ lat1) (h1b : lat1 ≤ 90) (h2a : -90 ≤ lat2) (h2b : lat2 ≤ 90) :
    calculateDistance lat1 lon1 lat2 lon2 = calculateDistance lat2 lon2 lat1 lon1 ∧
    0 ≤ calculateDistance lat1 lon1 lat2 lon2 ∧
    calculateDistance lat1 lon1 lat1 lon1 = 0 := by
  refine ⟨?_, ?_, ?_⟩
  · unfold calculateDistance
    rw [haversineA_symm lat1 lon1 lat2 lon2]
  · have h := atan2_nonneg (Real.sqrt (haversineA lat1 lon1 lat2 lon2))
      (Real.sqrt (1 - haversineA lat1 lon1 lat2 lon2)) (Real.sqrt_nonneg _)
    unfold calculateDistance
    have h2 : (0 : ℝ) ≤ 2 * atan2 (Real.sqrt (haversineA lat1 lon1 lat2 lon2))
        (Real.sqrt (1 - haversineA lat1 lon1 lat2 lon2)) := by linarith
    exact mul_nonneg (by norm_num) h2
  · unfold calculateDistance
    rw [haversineA_self]
    norm_num [atan2_zero_one]

/-- Witness for C10 at two concrete coordinates near Toronto. -/
theorem calculateDistance_props_witness :
    ((-90 : ℝ) ≤ 43 ∧ (43 : ℝ) ≤ 90 ∧ (-90 : ℝ) ≤ 44 ∧ (44 : ℝ) ≤ 90) ∧
    (calculateDistance 43 (-79) 44 (-80) = calculateDistance 44 (-80) 43 (-79) ∧
     0 ≤ calculateDistance 43 (-79) 44 (-80) ∧
     calculateDistance 43 (-79) 43 (-79) = 0) :=
  ⟨⟨by norm_num, by norm_num, by norm_num, by norm_num⟩,
   calculateDistance_props 43 (-79) 44 (-80)
     (by norm_num) (by norm_num) (by norm_num) (by norm_num)⟩

/-- Helper: the normalized Mercator x coordinate lies in [0, 1) for
longitudes in [-180, 180). -/
theorem mercatorX_bounds (lon : ℝ) (h0 : -180 ≤ lon) (h1 : lon < 180) :
    0 ≤ mercatorX lon ∧ mercatorX lon < 1 := by
  unfold mercatorX
  constructor
  · apply div_nonneg <;> linarith
  · rw [div_lt_one (by norm_num : (0 : ℝ) < 360)]
    linarith

/-- Helper: scaling a value of [0, 1) by 2^zoom and flooring lands in
[0, 2^zoom). -/
theorem floor_scale_bounds (u : ℝ) (zoom : ℕ) (h0 : 0 ≤ u) (h1 : u < 1) :
    0 ≤ ⌊u * (2 : ℝ) ^ zoom⌋ ∧ ⌊u * (2 : ℝ) ^ zoom⌋ < (2 : ℤ) ^ zoom := by
  have hn : (0 : ℝ) < (2 : ℝ) ^ zoom := by positivity
  constructor
  · exact Int.floor_nonneg.mpr (mul_nonneg h0 hn.le)
  · rw [Int.floor_lt]
    push_cast
    calc u * (2 : ℝ) ^ zoom < 1 * (2 : ℝ) ^ zoom := by
          exact mul_lt_mul_of_pos_right h1 hn
    _ = (2 : ℝ) ^ zoom := one_mul _

/-- Helper: the floored fractional-part pixel offset lands in
[0, tileSize). -/
theorem floor_frac_bounds (r s : ℝ) (hs : 0 < s) :
    0 ≤ ⌊(r - (⌊r⌋ : ℝ)) * s⌋ ∧ ((⌊(r - (⌊r⌋ : ℝ)) * s⌋ : ℤ) : ℝ) < s := by
  have hf0 : 0 ≤ r - (⌊r⌋ : ℝ) := by
    have := Int.floor_le r
    linarith
  have hf1 : r - (⌊r⌋ : ℝ) < 1 := by
    have := Int.lt_floor_add_one r
    linarith
  constructor
  · exact Int.floor_nonneg.mpr (mul_nonneg hf0 hs.le)
  · calc ((⌊(r - (⌊r⌋ : ℝ)) * s⌋ : ℤ) : ℝ) ≤ (r - (⌊r⌋ : ℝ)) * s := Int.floor_le _
    _ < 1 * s := mul_lt_mul_of_pos_right hf1 hs
    _ = s := one_mul s

/-- Claim C4 (amended): for latitudes inside the Mercator-safe range
(normalized y in [0, 1)), longitudes in [-180, 180) and a positive tile
size, latLonToTile lands in 0 <= pixel < tileSize and 0 <= tile < 2^zoom
on both axes. At lon = 180 the claim as frozen fails, see the
counterexample. -/
theorem latLonToTile_bounds (lat lon : ℝ) (zoom : ℕ) (tileSize : ℝ)
    (hy0 : 0 ≤ mercatorY lat) (hy1 : mercatorY lat < 1)
    (hlon0 : -180 ≤ lon) (hlon1 : lon < 180) (hts : 0 < tileSize) :
    0 ≤ (latLonToTile lat lon zoom tileSize).pixelX ∧
    (((latLonToTile lat lon zoom tileSize).pixelX : ℤ) : ℝ) < tileSize ∧
    0 ≤ (latLonToTile lat lon zoom tileSize).pixelY ∧
    (((latLonToTile lat lon zoom tileSize).pixelY : ℤ) : ℝ) < tileSize ∧
    0 ≤ (latLonToTile lat lon zoom tileSize).tileX ∧
    (latLonToTile lat lon zoom tileSize).tileX < (2 : ℤ) ^ zoom ∧
    0 ≤ (latLonToTile lat lon zoom tileSize).tileY ∧
    (latLonToTile lat lon zoom tileSize).tileY < (2 : ℤ) ^ zoom := by
  obtain ⟨hx0, hx1⟩ := mercatorX_bounds lon hlon0 hlon1
  have hpx := floor_frac_bounds (mercatorX lon * (2 : ℝ) ^ zoom) tileSize hts
  have hpy := floor_frac_bounds (mercatorY lat * (2 : ℝ) ^ zoom) tileSize hts
  have htx := floor_scale_bounds (mercatorX lon) zoom hx0 hx1
  have hty := floor_scale_bounds (mercatorY lat) zoom hy0 hy1
  exact ⟨hpx.1, hpx.2, hpy.1, hpy.2, htx.1, htx.2, hty.1, hty.2⟩

/-- Helper: the normalized Mercator y coordinate of the equator is 1/2. -/
theorem mercatorY_zero : mercatorY 0 = 1 / 2 := by
  unfold mercatorY
  norm_num [Real.tan_pi_div_four]

/-- Witness for C4 at the equator and prime meridian, zoom 11,
tile size 1000. -/
theorem latLonToTile_bounds_witness :
    (0 ≤ mercatorY 0 ∧ mercatorY 0 < 1 ∧
      -180 ≤ (0 : ℝ) ∧ (0 : ℝ) < 180 ∧ (0 : ℝ) < 1000) ∧
    (0 ≤ (latLonToTile 0 0 11 1000).pixelX ∧
     (((latLonToTile 0 0 11 1000).pixelX : ℤ) : ℝ) < 1000 ∧
     0 ≤ (latLonToTile 0 0 11 1000).pixelY ∧
     (((latLonToTile 0 0 11 1000).pixelY : ℤ) : ℝ) < 1000 ∧
     0 ≤ (latLonToTile 0 0 11 1000).tileX ∧
     (latLonToTile 0 0 11 1000).tileX < (2 : ℤ) ^ (11 : ℕ) ∧
     0 ≤ (latLonToTile 0 0 11 1000).tileY ∧
     (latLonToTile 0 0 11 1000).tileY < (2 : ℤ) ^ (11 : ℕ)) := by
  have hy0 : 0 ≤ mercatorY 0 := by rw [mercatorY_zero]; norm_num
  have hy1 : mercatorY 0 < 1 := by rw [mercatorY_zero]; norm_num
  exact ⟨⟨hy0, hy1, by norm_num, by norm_num, by norm_num⟩,
    latLonToTile_bounds 0 0 11 1000 hy0 hy1
      (by norm_num) (by norm_num) (by norm_num)⟩

/-- Counterexample for C4 as frozen: at the in-range longitude 180 (and
the Mercator-safe latitude 0) the tile index equals 2^zoom, violating
the claimed bound tileX < 2^zoom; shown at zoom 0, tile size 1000. -/
theorem latLonToTile_bounds_counterexample :
    (0 ≤ mercatorY 0 ∧ mercatorY 0 < 1) ∧
    (-180 ≤ (180 : ℝ) ∧ (180 : ℝ) ≤ 180) ∧
    (latLonToTile 0 180 0 1000).tileX = 1 ∧
    ¬((latLonToTile 0 180 0 1000).tileX < (2 : ℤ) ^ (0 : ℕ)) := by
  have h1 : (latLonToTile 0 180 0 1000).tileX = 1 := by
    show ⌊mercatorX 180 * (2 : ℝ) ^ (0 : ℕ)⌋ = 1
    norm_num [mercatorX]
  refine ⟨⟨by rw [mercatorY_zero]; norm_num, by rw [mercatorY_zero]; norm_num⟩,
    ⟨by norm_num, le_refl _⟩, h1, ?_⟩
  rw [h1]
  norm_num

/-- Helper: slerp from a unit quaternion to itself is the identity (the
library takes the aligned early return). -/
theorem slerp_self (p : Quat) (t : ℝ) (hp : qdot p p = 1) : slerp p p t = p := by
  by_cases h0 : t = 0
  · simp [slerp, h0]
  by_cases h1 : t = 1
  · simp [slerp, h0, h1]
  · have hc : (1 : ℝ) ≤ |qdot p p| := by rw [hp]; norm_num
    simp [slerp, h0, h1, hc]

/-- Claim C6: each device-orientation frame computes
dt = max(0.001, elapsed seconds), angularDelta = 2*acos(|clamp(dot, -1, 1)|),
k = clamp(angularDelta / 0.25, 0, 1), tau = lerp(TAU_SLOW, TAU_BASE, k)
(written here as TAU_SLOW + (TAU_BASE - TAU_SLOW) * k),
alpha = dt / (tau + dt), and stores the slerp of the previous smoothed
rotation toward the raw sample by alpha as the new smoothed rotation and
the camera rotation; on the first frame the smoothed rotation starts as
the raw sample itself, so a unit raw sample passes through unchanged. -/
theorem updateControls_spec (raw : Quat) (currentTime : ℝ) (s : ControlState)
    (dt : ℝ) (prev : Quat) (d ang k tau alpha : ℝ)
    (hdt : dt = max (1 / 1000) ((currentTime - s.lastT) / 1000))
    (hprev : prev = if s.orientationInitialized then s.smoothQ else raw)
    (hd : d = clamp (qdot prev raw) (-1) 1)
    (hang : ang = 2 * Real.arccos |d|)
    (hk : k = clamp (ang / (1 / 4)) 0 1)
    (htau : tau = TAU_SLOW + (TAU_BASE - TAU_SLOW) * k)
    (halpha : alpha = dt / (tau + dt)) :
    (updateControls raw currentTime s).smoothQ = slerp prev raw alpha ∧
    (updateControls raw currentTime s).cameraQ = slerp prev raw alpha ∧
    (updateControls raw currentTime s).lastT = currentTime ∧
    (updateControls raw currentTime s).orientationInitialized = true ∧
    (s.orientationInitialized = false → qdot raw raw = 1 →
      (updateControls raw currentTime s).smoothQ = raw) := by
  subst hdt hprev hd hang hk htau halpha
  have hmain : (updateControls raw currentTime s).smoothQ =
      slerp (if s.orientationInitialized then s.smoothQ else raw) raw
        (max (1 / 1000) ((currentTime - s.lastT) / 1000) /
          (TAU_SLOW + (TAU_BASE - TAU_SLOW) *
              clamp (2 * Real.arccos
                |clamp (qdot (if s.orientationInitialized then s.smoothQ else raw) raw)
                  (-1) 1| / (1 / 4)) 0 1 +
            max (1 / 1000) ((currentTime - s.lastT) / 1000))) := by
    show filterStep _ raw _ = _
    unfold filterStep lerp
    congr 2
    ring
  refine ⟨hmain, hmain, rfl, rfl, ?_⟩
  intro hinit hunit
  rw [hmain, hinit]
  simp only [Bool.false_eq_true, if_false]
  exact slerp_self raw _ hunit

/-- Witness for C6 on the first frame with the identity raw sample. -/
theorem updateControls_spec_witness :
    (updateControls ⟨0, 0, 0, 1⟩ 1 ⟨⟨0, 0, 0, 1⟩, false, 0, ⟨0, 0, 0, 1⟩⟩).smoothQ =
      ⟨0, 0, 0, 1⟩ := by
  have h := updateControls_spec (⟨0, 0, 0, 1⟩ : Quat) 1
    ⟨⟨0, 0, 0, 1⟩, false, 0, ⟨0, 0, 0, 1⟩⟩ _ _ _ _ _ _ _
    rfl rfl rfl rfl rfl rfl rfl
  exact h.2.2.2.2 rfl (by norm_num [qdot])

/-- Helper: Cauchy-Schwarz for the four-component dot product of unit
quaternions. -/
theorem qdot_le_one (p q : Quat) (hp : qdot p p = 1) (hq : qdot q q = 1) :
    |qdot p q| ≤ 1 := by
  rw [abs_le]
  unfold qdot at *
  constructor
  · nlinarith [sq_nonneg (p.x + q.x), sq_nonneg (p.y + q.y),
      sq_nonneg (p.z + q.z), sq_nonneg (p.w + q.w)]
  · nlinarith [sq_nonneg (p.x - q.x), sq_nonneg (p.y - q.y),
      sq_nonneg (p.z - q.z), sq_nonneg (p.w - q.w)]

/-- Helper: the sine addition identity in the form the slerp norm needs. -/
theorem sin_sq_identity (A B : ℝ) :
    Real.sin A ^ 2 + 2 * Real.sin A * Real.sin B * Real.cos (A + B) +
      Real.sin B ^ 2 = Real.sin (A + B) ^ 2 := by
  rw [Real.sin_add, Real.cos_add]
  linear_combination (-(Real.sin B ^ 2)) * Real.sin_sq_add_cos_sq A +
    (-(Real.sin A ^ 2)) * Real.sin_sq_add_cos_sq B

/-- Helper: bilinear expansion of the dot product of a two-term
combination with itself. -/
theorem qdot_expand (a b : ℝ) (p q : Quat) :
    qdot (qadd (qsmul a p) (qsmul b q)) (qadd (qsmul a p) (qsmul b q)) =
      a ^ 2 * qdot p p + 2 * a * b * qdot p q + b ^ 2 * qdot q q := by
  unfold qdot qadd qsmul
  ring

/-- Helper: linear expansion of the dot product of a two-term
combination with a third quaternion. -/
theorem qdot_expand_right (a b : ℝ) (p q r : Quat) :
    qdot (qadd (qsmul a p) (qsmul b q)) r = a * qdot p r + b * qdot q r := by
  unfold qdot qadd qsmul
  ring

/-- Helper: negation in the second argument of the dot product. -/
theorem qdot_qneg_right (p q : Quat) : qdot p (qneg q) = -qdot p q := by
  unfold qdot qneg
  ring

/-- Helper: negation in the first argument of the dot product. -/
theorem qdot_qneg_left (p q : Quat) : qdot (qneg p) q = -qdot p q := by
  unfold qdot qneg
  ring

/-- Helper: the dot product of a negated quaternion with itself. -/
theorem qdot_qneg_qneg (q : Quat) : qdot (qneg q) (qneg q) = qdot q q := by
  unfold qdot qneg
  ring

/-- Helper: the scalar heart of the slerp computation with c = cos of
the half angle in [0, 1): the interpolant has unit norm, its dot with
the (flipped) target is cos((1 - t) * arccos c), and that cosine is
nonnegative. -/
theorem slerp_core (c t : ℝ) (hc0 : 0 ≤ c) (hc1 : c < 1) (ht0 : 0 ≤ t) (ht1 : t ≤ 1) :
    (Real.sin ((1 - t) * Real.arccos c) / Real.sqrt (1 - c ^ 2)) ^ 2 * 1 +
        2 * (Real.sin ((1 - t) * Real.arccos c) / Real.sqrt (1 - c ^ 2)) *
          (Real.sin (t * Real.arccos c) / Real.sqrt (1 - c ^ 2)) * c +
        (Real.sin (t * Real.arccos c) / Real.sqrt (1 - c ^ 2)) ^ 2 * 1 = 1 ∧
    Real.sin ((1 - t) * Real.arccos c) / Real.sqrt (1 - c ^ 2) * c +
        Real.sin (t * Real.arccos c) / Real.sqrt (1 - c ^ 2) =
      Real.cos ((1 - t) * Real.arccos c) ∧
    0 ≤ Real.cos ((1 - t) * Real.arccos c) := by
  have hc1' : c ≤ 1 := hc1.le
  have hcm1 : (-1 : ℝ) ≤ c := by linarith
  have hcosv : Real.cos (Real.arccos c) = c := Real.cos_arccos hcm1 hc1'
  have hsinv : Real.sin (Real.arccos c) = Real.sqrt (1 - c ^ 2) := Real.sin_arccos c
  have hs_pos : 0 < Real.sqrt (1 - c ^ 2) := Real.sqrt_pos.mpr (by nlinarith)
  have hs_ne : Real.sqrt (1 - c ^ 2) ≠ 0 := ne_of_gt hs_pos
  have hs2 : Real.sqrt (1 - c ^ 2) ^ 2 = 1 - c ^ 2 := Real.sq_sqrt (by nlinarith)
  have hθnn : 0 ≤ Real.arccos c := Real.arccos_nonneg c
  have hθle : Real.arccos c ≤ Real.pi / 2 := by
    rw [Real.arccos_eq_pi_div_two_sub_arcsin]
    have := Real.arcsin_nonneg.mpr hc0
    linarith
  have hid := sin_sq_identity ((1 - t) * Real.arccos c) (t * Real.arccos c)
  have hAB : (1 - t) * Real.arccos c + t * Real.arccos c = Real.arccos c := by ring
  rw [hAB, hcosv, hsinv] at hid
  have hsinB : Real.sin (t * Real.arccos c) =
      Real.sqrt (1 - c ^ 2) * Real.cos ((1 - t) * Real.arccos c) -
        c * Real.sin ((1 - t) * Real.arccos c) := by
    have hBA : t * Real.arccos c = Real.arccos c - (1 - t) * Real.arccos c := by ring
    rw [hBA, Real.sin_sub, hsinv, hcosv]
  refine ⟨?_, ?_, ?_⟩
  · have key : (Real.sin ((1 - t) * Real.arccos c) ^ 2 +
        2 * Real.sin ((1 - t) * Real.arccos c) * Real.sin (t * Real.arccos c) * c +
        Real.sin (t * Real.arccos c) ^ 2) / Real.sqrt (1 - c ^ 2) ^ 2 = 1 := by
      rw [hid]
      exact div_self (pow_ne_zero 2 hs_ne)
    calc (Real.sin ((1 - t) * Real.arccos c) / Real.sqrt (1 - c ^ 2)) ^ 2 * 1 +
          2 * (Real.sin ((1 - t) * Real.arccos c) / Real.sqrt (1 - c ^ 2)) *
            (Real.sin (t * Real.arccos c) / Real.sqrt (1 - c ^ 2)) * c +
          (Real.sin (t * Real.arccos c) / Real.sqrt (1 - c ^ 2)) ^ 2 * 1
        = (Real.sin ((1 - t) * Real.arccos c) ^ 2 +
            2 * Real.sin ((1 - t) * Real.arccos c) * Real.sin (t * Real.arccos c) * c +
            Real.sin (t * Real.arccos c) ^ 2) / Real.sqrt (1 - c ^ 2) ^ 2 := by ring
      _ = 1 := key
  · rw [hsinB]
    calc Real.sin ((1 - t) * Real.arccos c) / Real.sqrt (1 - c ^ 2) * c +
          (Real.sqrt (1 - c ^ 2) * Real.cos ((1 - t) * Real.arccos c) -
            c * Real.sin ((1 - t) * Real.arccos c)) / Real.sqrt (1 - c ^ 2)
        = Real.sqrt (1 - c ^ 2) * Real.cos ((1 - t) * Real.arccos c) /
            Real.sqrt (1 - c ^ 2) := by ring
      _ = Real.cos ((1 - t) * Real.arccos c) := by
          rw [mul_comm, mul_div_assoc, div_self hs_ne, mul_one]
  · have hA0 : 0 ≤ (1 - t) * Real.arccos c := mul_nonneg (by linarith) hθnn
    have hA1 : (1 - t) * Real.arccos c ≤ Real.pi / 2 := by
      nlinarith [mul_nonneg ht0 hθnn]
    apply Real.cos_nonneg_of_mem_Icc
    constructor
    · have := Real.pi_pos
      linarith
    · exact hA1

/-- Helper: for unit quaternions and t in [0, 1], slerp stays unit and
its absolute dot product with the target is cos((1 - t) * theta) where
theta = arccos(|dot p q|) is the half angle between the inputs. -/
theorem slerp_props (p q : Quat) (t : ℝ) (hp : qdot p p = 1) (hq : qdot q q = 1)
    (ht0 : 0 ≤ t) (ht1 : t ≤ 1) :
    qdot (slerp p q t) (slerp p q t) = 1 ∧
    |qdot (slerp p q t) q| = Real.cos ((1 - t) * Real.arccos |qdot p q|) := by
  have habs : |qdot p q| ≤ 1 := qdot_le_one p q hp hq
  have habs0 : (-1 : ℝ) ≤ |qdot p q| := le_trans (by norm_num) (abs_nonneg _)
  by_cases h0 : t = 0
  · subst h0
    have he : slerp p q 0 = p := by simp [slerp]
    rw [he]
    refine ⟨hp, ?_⟩
    rw [sub_zero, one_mul, Real.cos_arccos habs0 habs]
  by_cases h1 : t = 1
  · subst h1
    have he : slerp p q 1 = q := by simp [slerp]
    rw [he, sub_self, zero_mul, Real.cos_zero, hq]
    exact ⟨rfl, abs_one⟩
  by_cases hbig : 1 ≤ |qdot p q|
  · have hc1 : |qdot p q| = 1 := le_antisymm habs hbig
    have he : slerp p q t = p := by simp [slerp, h0, h1, hbig]
    rw [he, hc1, Real.arccos_one, mul_zero, Real.cos_zero]
    exact ⟨hp, rfl⟩
  · push_neg at hbig
    have hc0 : 0 ≤ |qdot p q| := abs_nonneg _
    obtain ⟨hcore1, hcore2, hcore3⟩ := slerp_core |qdot p q| t hc0 hbig ht0 ht1
    by_cases hflip : qdot p q < 0
    · have he : slerp p q t =
          qadd (qsmul (Real.sin ((1 - t) * Real.arccos |qdot p q|) /
              Real.sqrt (1 - |qdot p q| ^ 2)) p)
            (qsmul (Real.sin (t * Real.arccos |qdot p q|) /
              Real.sqrt (1 - |qdot p q| ^ 2)) (qneg q)) := by
        simp [slerp, h0, h1, hbig.not_le, hflip]
      have habs_neg : |qdot p q| = -qdot p q := abs_of_neg hflip
      constructor
      · rw [he, qdot_expand, hp, qdot_qneg_right, qdot_qneg_qneg, hq]
        have hmul : 2 * (Real.sin ((1 - t) * Real.arccos |qdot p q|) /
              Real.sqrt (1 - |qdot p q| ^ 2)) *
            (Real.sin (t * Real.arccos |qdot p q|) /
              Real.sqrt (1 - |qdot p q| ^ 2)) * |qdot p q| =
            2 * (Real.sin ((1 - t) * Real.arccos |qdot p q|) /
              Real.sqrt (1 - |qdot p q| ^ 2)) *
            (Real.sin (t * Real.arccos |qdot p q|) /
              Real.sqrt (1 - |qdot p q| ^ 2)) * -(qdot p q) := by
          rw [habs_neg]
        linarith [hcore1, hmul]
      · rw [he, qdot_expand_right, qdot_qneg_left, hq]
        have hmul : Real.sin ((1 - t) * Real.arccos |qdot p q|) /
              Real.sqrt (1 - |qdot p q| ^ 2) * |qdot p q| =
            Real.sin ((1 - t) * Real.arccos |qdot p q|) /
              Real.sqrt (1 - |qdot p q| ^ 2) * -(qdot p q) := by
          rw [habs_neg]
        have hval : Real.sin ((1 - t) * Real.arccos |qdot p q|) /
              Real.sqrt (1 - |qdot p q| ^ 2) * qdot p q +
            Real.sin (t * Real.arccos |qdot p q|) /
              Real.sqrt (1 - |qdot p q| ^ 2) * -1 =
            -Real.cos ((1 - t) * Real.arccos |qdot p q|) := by
          linarith [hcore2, hmul]
        rw [hval, abs_neg, abs_of_nonneg hcore3]
    · push_neg at hflip
      have he : slerp p q t =
          qadd (qsmul (Real.sin ((1 - t) * Real.arccos |qdot p q|) /
              Real.sqrt (1 - |qdot p q| ^ 2)) p)
            (qsmul (Real.sin (t * Real.arccos |qdot p q|) /
              Real.sqrt (1 - |qdot p q| ^ 2)) q) := by
        simp [slerp, h0, h1, hbig.not_le, not_lt.mpr hflip]
      have habs_pos : |qdot p q| = qdot p q := abs_of_nonneg hflip
      constructor
      · rw [he, qdot_expand, hp, hq]
        have hmul : 2 * (Real.sin ((1 - t) * Real.arccos |qdot p q|) /
              Real.sqrt (1 - |qdot p q| ^ 2)) *
            (Real.sin (t * Real.arccos |qdot p q|) /
              Real.sqrt (1 - |qdot p q| ^ 2)) * |qdot p q| =
            2 * (Real.sin ((1 - t) * Real.arccos |qdot p q|) /
              Real.sqrt (1 - |qdot p q| ^ 2)) *
            (Real.sin (t * Real.arccos |qdot p q|) /
              Real.sqrt (1 - |qdot p q| ^ 2)) * qdot p q := by
          rw [habs_pos]
        linarith [hcore1, hmul]
      · rw [he, qdot_expand_right, hq]
        have hmul : Real.sin ((1 - t) * Real.arccos |qdot p q|) /
              Real.sqrt (1 - |qdot p q| ^ 2) * |qdot p q| =
            Real.sin ((1 - t) * Real.arccos |qdot p q|) /
              Real.sqrt (1 - |qdot p q| ^ 2) * qdot p q := by
          rw [habs_pos]
        have hval : Real.sin ((1 - t) * Real.arccos |qdot p q|) /
              Real.sqrt (1 - |qdot p q| ^ 2) * qdot p q +
            Real.sin (t * Real.arccos |qdot p q|) /
              Real.sqrt (1 - |qdot p q| ^ 2) * 1 =
            Real.cos ((1 - t) * Real.arccos |qdot p q|) := by
          linarith [hcore2, hmul]
        rw [hval, abs_of_nonneg hcore3]

/-- Helper: the half angle to the target after slerp is exactly the old
half angle scaled by (1 - t). -/
theorem slerp_halfAngle (p q : Quat) (t : ℝ) (hp : qdot p p = 1) (hq : qdot q q = 1)
    (ht0 : 0 ≤ t) (ht1 : t ≤ 1) :
    Real.arccos |qdot (slerp p q t) q| = (1 - t) * Real.arccos |qdot p q| := by
  rw [(slerp_props p q t hp hq ht0 ht1).2]
  apply Real.arccos_cos
  · exact mul_nonneg (by linarith) (Real.arccos_nonneg _)
  · have h1 : (1 - t) * Real.arccos |qdot p q| ≤ 1 * Real.arccos |qdot p q| := by
      have := Real.arccos_nonneg |qdot p q|
      nlinarith
    have h2 := Real.arccos_le_pi |qdot p q|
    linarith [h1, h2]

/-- Helper: one filter step keeps the smoothed rotation unit and
contracts the half angle to the target by at least the factor 120/121,
the worst case of alpha = dt / (tau + dt) at dt = 0.001 and
tau = TAU_SLOW = 0.12. -/
theorem filterStep_contract (dt : ℝ) (hdt : 1 / 1000 ≤ dt) (target p : Quat)
    (htu : qdot target target = 1) (hpu : qdot p p = 1) :
    qdot (filterStep dt target p) (filterStep dt target p) = 1 ∧
    Real.arccos |qdot (filterStep dt target p) target| ≤
      (120 / 121) * Real.arccos |qdot p target| := by
  have hexp : filterStep dt target p =
      slerp p target (dt / (lerp TAU_SLOW TAU_BASE
        (clamp (2 * Real.arccos |clamp (qdot p target) (-1) 1| / (1 / 4)) 0 1) + dt)) :=
    rfl
  set k := clamp (2 * Real.arccos |clamp (qdot p target) (-1) 1| / (1 / 4)) 0 1
    with hkdef
  set tau := lerp TAU_SLOW TAU_BASE k with htaudef
  set alpha := dt / (tau + dt) with halphadef
  have hk0 : 0 ≤ k := by
    rw [hkdef]
    unfold clamp
    exact le_max_left _ _
  have hk1 : k ≤ 1 := by
    rw [hkdef]
    unfold clamp
    exact max_le (by norm_num) (min_le_left _ _)
  have htau1 : tau ≤ 12 / 100 := by
    rw [htaudef]
    unfold lerp TAU_SLOW TAU_BASE
    nlinarith
  have htau0 : 0 < tau := by
    rw [htaudef]
    unfold lerp TAU_SLOW TAU_BASE
    nlinarith
  have hdt0 : (0 : ℝ) < dt := by linarith
  have hden : 0 < tau + dt := by linarith
  have halpha0 : 0 ≤ alpha := by
    rw [halphadef]
    positivity
  have halpha1 : alpha ≤ 1 := by
    rw [halphadef, div_le_one hden]
    linarith
  have halphamin : 1 / 121 ≤ alpha := by
    rw [halphadef, div_le_div_iff (by norm_num) hden]
    nlinarith
  constructor
  · rw [hexp]
    exact (slerp_props p target alpha hpu htu halpha0 halpha1).1
  · rw [hexp, slerp_halfAngle p target alpha hpu htu halpha0 halpha1]
    have harc := Real.arccos_nonneg |qdot p target|
    nlinarith

/-- Helper: along the iteration the smoothed rotation stays unit and the
half angle to the constant target decays geometrically. -/
theorem filterIter_props (target p0 : Quat) (htu : qdot target target = 1)
    (hp0 : qdot p0 p0 = 1) (dt : ℕ → ℝ) (hdt : ∀ n, 1 / 1000 ≤ dt n) :
    ∀ n, qdot (filterIter target dt p0 n) (filterIter target dt p0 n) = 1 ∧
      Real.arccos |qdot (filterIter target dt p0 n) target| ≤
        (120 / 121) ^ n * Real.arccos |qdot p0 target| := by
  intro n
  induction n with
  | zero =>
    refine ⟨hp0, ?_⟩
    rw [pow_zero, one_mul, show filterIter target dt p0 0 = p0 from rfl]
  | succ n ih =>
    have hstep := filterStep_contract (dt n) (hdt n) target
      (filterIter target dt p0 n) htu ih.1
    refine ⟨hstep.1, ?_⟩
    calc Real.arccos |qdot (filterIter target dt p0 (n + 1)) target|
        ≤ (120 / 121) * Real.arccos |qdot (filterIter target dt p0 n) target| :=
          hstep.2
      _ ≤ (120 / 121) * ((120 / 121) ^ n * Real.arccos |qdot p0 target|) := by
          have h9 : (0 : ℝ) ≤ 120 / 121 := by norm_num
          exact mul_le_mul_of_nonneg_left ih.2 h9
      _ = (120 / 121) ^ (n + 1) * Real.arccos |qdot p0 target| := by ring

/-- Claim C7: under a constant unit raw input and any frame times with
dt at least the 0.001 clamp, the filter angle between the smoothed
rotation and the raw input drops below any positive epsilon after
finitely many frames, from any initialized unit starting rotation. -/
theorem orientationFilter_convergence (raw p0 : Quat) (hraw : qdot raw raw = 1)
    (hp0 : qdot p0 p0 = 1) (dt : ℕ → ℝ) (hdt : ∀ n, 1 / 1000 ≤ dt n)
    (eps : ℝ) (heps : 0 < eps) :
    ∃ N, ∀ n, N ≤ n → angleBetween (filterIter raw dt p0 n) raw < eps := by
  obtain ⟨N, hN⟩ := exists_pow_lt_of_lt_one (show (0 : ℝ) < eps / 4 by linarith)
    (show (120 / 121 : ℝ) < 1 by norm_num)
  refine ⟨N, fun n hn => ?_⟩
  obtain ⟨hunit, hhalf⟩ := filterIter_props raw p0 hraw hp0 dt hdt n
  have habs : |qdot (filterIter raw dt p0 n) raw| ≤ 1 := qdot_le_one _ _ hunit hraw
  have hclamp : clamp (qdot (filterIter raw dt p0 n) raw) (-1) 1 =
      qdot (filterIter raw dt p0 n) raw := by
    rw [abs_le] at habs
    unfold clamp
    rw [min_eq_right habs.2, max_eq_right habs.1]
  have hth0 : Real.arccos |qdot p0 raw| ≤ Real.pi / 2 := by
    rw [Real.arccos_eq_pi_div_two_sub_arcsin]
    have := Real.arcsin_nonneg.mpr (abs_nonneg (qdot p0 raw))
    linarith
  have hpow_le : (120 / 121 : ℝ) ^ n ≤ (120 / 121 : ℝ) ^ N :=
    pow_le_pow_of_le_one (by norm_num) (by norm_num) hn
  have hpow_nn : (0 : ℝ) ≤ (120 / 121 : ℝ) ^ n := by positivity
  have hpi4 := Real.pi_le_four
  have hpipos := Real.pi_pos
  have harcnn := Real.arccos_nonneg |qdot (filterIter raw dt p0 n) raw|
  unfold angleBetween
  rw [hclamp]
  have hb2 : (120 / 121 : ℝ) ^ n * Real.arccos |qdot p0 raw| ≤
      (120 / 121 : ℝ) ^ n * (Real.pi / 2) := mul_le_mul_of_nonneg_left hth0 hpow_nn
  have hb3 : (120 / 121 : ℝ) ^ n * (Real.pi / 2) ≤
      (120 / 121 : ℝ) ^ N * (Real.pi / 2) :=
    mul_le_mul_of_nonneg_right hpow_le (by linarith)
  have hb4 : (120 / 121 : ℝ) ^ N * (Real.pi / 2) < eps / 4 * (Real.pi / 2) :=
    mul_lt_mul_of_pos_right hN (by linarith)
  have hb5 : eps / 4 * (Real.pi / 2) ≤ eps / 4 * 2 := by
    have h24 : Real.pi / 2 ≤ 2 := by linarith
    exact mul_le_mul_of_nonneg_left h24 (by linarith)
  linarith

/-- Witness for C7 with the identity quaternion as both the raw input
and the start, one-second frames, and epsilon 1. -/
theorem orientationFilter_convergence_witness :
    ∃ N, ∀ n, N ≤ n →
      angleBetween (filterIter ⟨0, 0, 0, 1⟩ (fun _ => 1) ⟨0, 0, 0, 1⟩ n)
        ⟨0, 0, 0, 1⟩ < 1 :=
  orientationFilter_convergence ⟨0, 0, 0, 1⟩ ⟨0, 0, 0, 1⟩
    (by norm_num [qdot]) (by norm_num [qdot]) (fun _ => 1)
    (fun n => by norm_num) 1 (by norm_num)

end WplaceAR
